import Mathlib

/-!
Verification of `src/detect_ssid.cpp`, a small program that selects a
wireless network interface, repeatedly scans for visible wireless
networks, searches the scan output for a target SSID name, and publishes
the matched network name (or an empty string) once per cycle.

Scan texts and names are modelled as `List Char`; the scan-output file is
modelled as `Option (List Char)` (`none` when the file cannot be opened).
-/

/-- Models `std::string::find(pat)` on C++ strings: the index of the first
occurrence of `pat` as a contiguous substring of `text`, or `none`
(C++ `npos`) when `pat` does not occur.  As in C++, the empty pattern is
found at index 0. -/
def string_find (pat : List Char) : List Char → Option Nat
  | [] => if pat.isPrefixOf [] then some 0 else none
  | c :: rest =>
    if pat.isPrefixOf (c :: rest) then some 0
    else (string_find pat rest).map (· + 1)

/-- `pat` occurs in `text` at index `i` (a contiguous substring starting
at position `i`). -/
def occursAt (pat text : List Char) (i : Nat) : Prop :=
  pat <+: text.drop i

/-- Shallow embedding of `search_for_phone_ssid` (detect_ssid.cpp:141-168).
`ssid_file` is the state of the file named by `ssid_filename`: `none` when
`std::ifstream` fails to open it, `some contents` otherwise.
`phone_network` is the prior value of the output parameter; the C++ code
begins with `phone_network.clear()`, modelled by the shadowing `let`.
The result pairs the returned `bool` with the final value of the output
parameter.  `substr(found, n)` keeps at most the available characters,
which `List.take` mirrors. -/
def search_for_phone_ssid (ssid_file : Option (List Char))
    (phone_artifact_ssid phone_network : List Char) : Bool × List Char :=
  let phone_network : List Char := []
  match ssid_file with
  | none => (false, phone_network)
  | some file_contents =>
    match string_find phone_artifact_ssid file_contents with
    | some found =>
      (true, (file_contents.drop found).take (phone_artifact_ssid.length + 2))
    | none => (false, phone_network)

/- ### Helper lemmas about `string_find` -/

/-- If `string_find` returns an index, the pattern occurs there. -/
theorem string_find_occursAt {pat text : List Char} {i : Nat}
    (h : string_find pat text = some i) : occursAt pat text i := by
  induction text generalizing i with
  | nil =>
    unfold string_find at h
    split at h
    · rename_i hp
      cases h
      simpa [occursAt] using List.isPrefixOf_iff_prefix.mp hp
    · exact absurd h (by simp)
  | cons c rest ih =>
    unfold string_find at h
    split at h
    · rename_i hp
      cases h
      simpa [occursAt] using List.isPrefixOf_iff_prefix.mp hp
    · rcases Option.map_eq_some'.mp h with ⟨j, hj, rfl⟩
      simpa [occursAt] using ih hj

/-- The index returned by `string_find` is minimal among occurrence
indices. -/
theorem string_find_min {pat text : List Char} {i : Nat}
    (h : string_find pat text = some i) :
    ∀ j, occursAt pat text j → i ≤ j := by
  induction text generalizing i with
  | nil =>
    unfold string_find at h
    split at h
    · cases h; intro j _; exact Nat.zero_le j
    · exact absurd h (by simp)
  | cons c rest ih =>
    unfold string_find at h
    split at h
    · cases h; intro j _; exact Nat.zero_le j
    · rename_i hp
      rcases Option.map_eq_some'.mp h with ⟨k, hk, rfl⟩
      intro j hj
      match j with
      | 0 =>
        exact absurd (List.isPrefixOf_iff_prefix.mpr (by simpa [occursAt] using hj)) hp
      | j + 1 =>
        have := ih hk j (by simpa [occursAt] using hj)
        omega

/-- If `string_find` fails, the pattern occurs nowhere. -/
theorem string_find_none {pat text : List Char}
    (h : string_find pat text = none) : ∀ j, ¬ occursAt pat text j := by
  induction text with
  | nil =>
    unfold string_find at h
    split at h
    · exact absurd h (by simp)
    · rename_i hp
      intro j hj
      exact hp (List.isPrefixOf_iff_prefix.mpr (by simpa [occursAt] using hj))
  | cons c rest ih =>
    unfold string_find at h
    split at h
    · exact absurd h (by simp)
    · rename_i hp
      have hrest : string_find pat rest = none := by
        cases hr : string_find pat rest with
        | none => rfl
        | some k => rw [hr] at h; simp at h
      intro j hj
      match j with
      | 0 =>
        exact hp (List.isPrefixOf_iff_prefix.mpr (by simpa [occursAt] using hj))
      | j + 1 =>
        exact ih hrest j (by simpa [occursAt] using hj)

/-- If the pattern occurs somewhere, `string_find` succeeds. -/
theorem string_find_isSome {pat text : List Char} {j : Nat}
    (h : occursAt pat text j) : ∃ i, string_find pat text = some i := by
  cases hf : string_find pat text with
  | none => exact absurd h (string_find_none hf j)
  | some i => exact ⟨i, rfl⟩

/-- The result of the matcher does not depend on the prior contents of the
output parameter (it is cleared on entry). -/
theorem search_prior_irrelevant (ssid_file : Option (List Char))
    (pat p₁ p₂ : List Char) :
    search_for_phone_ssid ssid_file pat p₁ = search_for_phone_ssid ssid_file pat p₂ := rfl

/- ### Interface selection (detect_ssid.cpp:59-110) -/

/-- Address family of an `ifaddrs` entry (`sa_family`). -/
inductive AddrFamily
  | inet
  | inet6
  | packet
  | other
deriving DecidableEq, Repr

/-- One entry of the `ifaddrs` linked list: the interface name (`ifa_name`,
without its NUL terminator) and the address (`ifa_addr`), `none` when the
pointer is NULL, otherwise its family. -/
structure IfAddr where
  name : List Char
  addr : Option AddrFamily
deriving DecidableEq, Repr

/-- Loop-body test of `get_wireless_interface_name` (detect_ssid.cpp:72-98):
the entry is skipped when `ifa_addr` is NULL; otherwise the family must be
`AF_INET` or `AF_INET6` and the name must satisfy
`ifa_name[0] == 'w' && ifa_name[2] == 'x'`.  C indexing into the
NUL-terminated name is modelled with `List.get?`: for a name shorter than
three characters, `name[2]` reads the terminator (or padding), which is
never `'x'`, matching `get? = none` being rejected. -/
def matchesIface (ifa : IfAddr) : Bool :=
  match ifa.addr with
  | none => false
  | some family =>
    (family == AddrFamily.inet || family == AddrFamily.inet6)
      && ifa.name.get? 0 == some 'w' && ifa.name.get? 2 == some 'x'

/-- Propositional form of `matchesIface`, as the spec words it: an assigned
IPv4 or IPv6 address, first character `'w'`, third character `'x'`. -/
def isTargetIface (ifa : IfAddr) : Prop :=
  (ifa.addr = some AddrFamily.inet ∨ ifa.addr = some AddrFamily.inet6)
    ∧ ifa.name.get? 0 = some 'w' ∧ ifa.name.get? 2 = some 'x'

theorem matchesIface_iff (ifa : IfAddr) :
    matchesIface ifa = true ↔ isTargetIface ifa := by
  cases ifa with
  | mk name addr =>
    cases addr with
    | none => simp [matchesIface, isTargetIface]
    | some family =>
      simp [matchesIface, isTargetIface, Bool.and_eq_true, Bool.or_eq_true,
        and_assoc]

/-- Shallow embedding of `get_wireless_interface_name` (detect_ssid.cpp:59-110).
`ifaddrs` is the linked list returned by `getifaddrs`; `iface_name` is the
prior value of the output parameter, left unchanged on failure.  The walk
selects the first entry passing `matchesIface` and breaks; if the walk
reaches the end (`ifa == NULL`) the function returns `-1`.  The result
pairs the returned status with the final value of the output parameter. -/
def get_wireless_interface_name (ifaddrs : List IfAddr) (iface_name : List Char) :
    Int × List Char :=
  match ifaddrs with
  | [] => (-1, iface_name)
  | ifa :: rest =>
    if matchesIface ifa then (0, ifa.name)
    else get_wireless_interface_name rest iface_name

/- ### Scan invocation (detect_ssid.cpp:198-209) -/

/-- The shell command built by `ssid_network_scan` and passed to `system`. -/
def ssid_scan_command (ifname ssid_filename : List Char) : List Char :=
  "iwlist ".toList ++ ifname ++ " scan | grep SSID > ".toList ++ ssid_filename

/-- Shallow embedding of `ssid_network_scan` (detect_ssid.cpp:198-209).
The function builds `ssid_scan_command`, passes it to `system`, and returns
`void`.  `system_result` is the value `system` returned (`-1` when the
child process could not be created, otherwise the termination status); the
C++ code discards it, so the embedding returns `Unit` for every input:
nothing about the scan outcome flows back to the caller. -/
def ssid_network_scan (ifname ssid_filename : List Char) (system_result : Int) : Unit :=
  let _ := ssid_scan_command ifname ssid_filename
  let _ := system_result
  ()

/- ### Startup and the poll/report loop (detect_ssid.cpp:214-264) -/

/-- What `main` does after interface selection: either terminate with an
exit code before any loop iteration, or enter the poll/report loop with the
selected interface name. -/
inductive StartupOutcome
  | terminated (exitCode : Int)
  | loopEntered (wifiname : List Char)
deriving DecidableEq, Repr

/-- Startup portion of `main` (detect_ssid.cpp:222-232): `wifiname` starts
as the default-constructed empty string; if `get_wireless_interface_name`
returns nonzero, `main` returns `1` without entering the loop. -/
def main_startup (ifaddrs : List IfAddr) : StartupOutcome :=
  let r := get_wireless_interface_name ifaddrs []
  if r.1 ≠ 0 then StartupOutcome.terminated 1 else StartupOutcome.loopEntered r.2

/-- One iteration of the loop body (detect_ssid.cpp:234-257). `scan_file` is
the state of the scan-output file when the matcher reads it;
`phone_network` is the value of `phone_network_name` entering the
iteration (the variable lives outside the loop).  `msg.data` is
default-constructed empty and set to `phone_network_name` (through a
`stringstream` round-trip) only when the matcher returns true;
`chatter_pub.publish(msg)` runs exactly once per iteration, so the first
component lists the messages published by the iteration.  The second
component is `phone_network_name` after the iteration. -/
def cycle_report (scan_file : Option (List Char)) (pat phone_network : List Char) :
    List (List Char) × List Char :=
  let s := search_for_phone_ssid scan_file pat phone_network
  let msgData := if s.1 then s.2 else []
  ([msgData], s.2)

/-- The poll/report loop (detect_ssid.cpp:234-261) over a finite trace:
`scan_files` gives, for each tick, the state of the scan-output file that
`ssid_network_scan` left for the matcher to read.  Returns the
concatenation of all messages published, in order. -/
def poll_loop (scan_files : List (Option (List Char))) (pat phone_network : List Char) :
    List (List Char) :=
  match scan_files with
  | [] => []
  | f :: rest =>
    (cycle_report f pat phone_network).1
      ++ poll_loop rest pat (cycle_report f pat phone_network).2

/-- Modelled from the spec (§4.4, §7): the Report a cycle should publish —
the matched network text when the matcher succeeds, the empty string when
it finds no match or the scan failed (file unreadable). -/
def report_spec (scan_file : Option (List Char)) (pat : List Char) : List Char :=
  let s := search_for_phone_ssid scan_file pat []
  if s.1 then s.2 else []

instance (pat text : List Char) (i : Nat) : Decidable (occursAt pat text i) := by
  unfold occursAt
  infer_instance

instance (ifa : IfAddr) : Decidable (isTargetIface ifa) := by
  unfold isTargetIface
  infer_instance

/- ### Claim theorems -/

/-- Claim C7: for every scan text that does not contain the target prefix,
`search_for_phone_ssid` returns false and leaves the output string empty,
regardless of the output string's prior contents. -/
theorem search_not_found_empty (contents pat prior : List Char)
    (h : ¬ pat <:+: contents) :
    search_for_phone_ssid (some contents) pat prior = (false, []) := by
  cases hf : string_find pat contents with
  | none => simp [search_for_phone_ssid, hf]
  | some i =>
    exfalso
    apply h
    rcases string_find_occursAt hf with ⟨t, ht⟩
    exact ⟨contents.take i, t, by rw [List.append_assoc, ht, List.take_append_drop]⟩

/-- Witness for C7 at a concrete scan text with nonempty prior output. -/
theorem search_not_found_empty_witness :
    (¬ ['P'] <:+: ['a', 'b', 'c']) ∧
      search_for_phone_ssid (some ['a', 'b', 'c']) ['P'] ['z'] = (false, []) :=
  ⟨by decide, search_not_found_empty ['a', 'b', 'c'] ['P'] ['z'] (by decide)⟩

/-- Claim C9: the matcher is pure and deterministic — its result depends
only on the scan-file contents and the prefix; in particular it is
independent of the prior value of the output parameter, so any two
invocations with the same scan-result content and prefix produce the same
(found-flag, matched-network) pair. -/
theorem search_pure_deterministic :
    ∀ (ssid_file : Option (List Char)) (pat p₁ p₂ : List Char),
      search_for_phone_ssid ssid_file pat p₁ = search_for_phone_ssid ssid_file pat p₂ :=
  fun ssid_file pat p₁ p₂ => search_prior_irrelevant ssid_file pat p₁ p₂

/-- Counterexample to claim C2 as stated: with prefix `"P"` and scan text
`"P"`, the matcher reports a match but the matched string has length 1,
not `len(prefix) + 2 = 3` — `substr` clamps at the end of the text. -/
theorem search_match_length_counterexample :
    (search_for_phone_ssid (some ['P']) ['P'] []).1 = true ∧
      (search_for_phone_ssid (some ['P']) ['P'] []).2.length
        ≠ (['P'] : List Char).length + 2 := by
  decide

/-- Claim C2, amended: whenever the matcher reports a match, the matched
string has length `min (len(prefix) + 2) (len(text) - i)` where `i` is the
index of the first occurrence — in particular at most `len(prefix) + 2`,
with equality exactly when at least two characters follow the occurrence
of the prefix. -/
theorem search_match_length_min (contents pat prior : List Char)
    (h : (search_for_phone_ssid (some contents) pat prior).1 = true) :
    ∃ i, string_find pat contents = some i ∧
      (search_for_phone_ssid (some contents) pat prior).2.length
        = min (pat.length + 2) (contents.length - i) ∧
      (search_for_phone_ssid (some contents) pat prior).2.length ≤ pat.length + 2 := by
  cases hf : string_find pat contents with
  | none => simp [search_for_phone_ssid, hf] at h
  | some i =>
    have hlen : (search_for_phone_ssid (some contents) pat prior).2
        = (contents.drop i).take (pat.length + 2) := by
      simp [search_for_phone_ssid, hf]
    have h2 : ((contents.drop i).take (pat.length + 2)).length
        = min (pat.length + 2) (contents.length - i) := by
      simp
    exact ⟨i, rfl, by rw [hlen, h2], by rw [hlen, h2]; omega⟩

/-- Witness for the amended C2 at a concrete matching input. -/
theorem search_match_length_min_witness :
    (search_for_phone_ssid (some ['x', 'P', 'a', 'b']) ['P'] []).1 = true ∧
      (∃ i, string_find ['P'] ['x', 'P', 'a', 'b'] = some i ∧
        (search_for_phone_ssid (some ['x', 'P', 'a', 'b']) ['P'] []).2.length
          = min ((['P'] : List Char).length + 2) ((['x', 'P', 'a', 'b'] : List Char).length - i) ∧
        (search_for_phone_ssid (some ['x', 'P', 'a', 'b']) ['P'] []).2.length
          ≤ (['P'] : List Char).length + 2) :=
  ⟨by decide, search_match_length_min ['x', 'P', 'a', 'b'] ['P'] [] (by decide)⟩

/-- Claim C10: when the prefix occurs but fewer than two characters remain
after its first occurrence, the matcher still returns true and the matched
network is the prefix followed by however many trailing characters exist. -/
theorem search_short_match_returned (contents pat prior : List Char) (i : Nat)
    (hfind : string_find pat contents = some i)
    (hshort : contents.length < i + pat.length + 2) :
    ∃ tail, tail.length < 2 ∧
      search_for_phone_ssid (some contents) pat prior = (true, pat ++ tail) := by
  rcases string_find_occursAt hfind with ⟨t, ht⟩
  have hlen := congrArg List.length ht
  simp at hlen
  refine ⟨t, by omega, ?_⟩
  simp only [search_for_phone_ssid, hfind]
  rw [← ht]
  have hle : (pat ++ t).length ≤ pat.length + 2 := by
    simp
    omega
  rw [List.take_of_length_le hle]

/-- Witness for C10: prefix `"P"` at the end of scan text `"aP"` yields a
match of length 1 (the prefix with an empty tail). -/
theorem search_short_match_returned_witness :
    string_find ['P'] ['a', 'P'] = some 1 ∧
      (['a', 'P'] : List Char).length < 1 + (['P'] : List Char).length + 2 ∧
      (∃ tail, tail.length < 2 ∧
        search_for_phone_ssid (some ['a', 'P']) ['P'] ['q'] = (true, ['P'] ++ tail)) :=
  ⟨by decide, by decide,
    search_short_match_returned ['a', 'P'] ['P'] ['q'] 1 (by decide) (by decide)⟩

/-- Claim C1: for every scan text containing the prefix followed by at
least two more characters, the matcher returns true and sets the output to
the substring of length `len(prefix) + 2` taken verbatim from the scan
text at the first occurrence of the prefix. -/
theorem search_full_match_at_first_occurrence (contents pat prior : List Char)
    (h : ∃ j, occursAt pat contents j ∧ j + pat.length + 2 ≤ contents.length) :
    ∃ i, occursAt pat contents i ∧ (∀ k, k < i → ¬ occursAt pat contents k) ∧
      search_for_phone_ssid (some contents) pat prior
        = (true, (contents.drop i).take (pat.length + 2)) ∧
      ((contents.drop i).take (pat.length + 2)).length = pat.length + 2 := by
  rcases h with ⟨j, hj, hlen⟩
  rcases string_find_isSome hj with ⟨i, hf⟩
  have hmin := string_find_min hf
  have hij : i ≤ j := hmin j hj
  refine ⟨i, string_find_occursAt hf, ?_, by simp [search_for_phone_ssid, hf], ?_⟩
  · intro k hk hok
    exact absurd (hmin k hok) (by omega)
  · simp
    omega

/-- Witness for C1: prefix `"P"` inside `"xPab"`, first occurrence at
index 1 with two trailing characters. -/
theorem search_full_match_at_first_occurrence_witness :
    (∃ j, occursAt ['P'] ['x', 'P', 'a', 'b'] j ∧
        j + (['P'] : List Char).length + 2 ≤ (['x', 'P', 'a', 'b'] : List Char).length) ∧
      (∃ i, occursAt ['P'] ['x', 'P', 'a', 'b'] i ∧
        (∀ k, k < i → ¬ occursAt ['P'] ['x', 'P', 'a', 'b'] k) ∧
        search_for_phone_ssid (some ['x', 'P', 'a', 'b']) ['P'] ['z']
          = (true, ((['x', 'P', 'a', 'b'] : List Char).drop i).take ((['P'] : List Char).length + 2)) ∧
        (((['x', 'P', 'a', 'b'] : List Char).drop i).take ((['P'] : List Char).length + 2)).length
          = (['P'] : List Char).length + 2) :=
  ⟨⟨1, by decide, by decide⟩,
    search_full_match_at_first_occurrence ['x', 'P', 'a', 'b'] ['P'] ['z']
      ⟨1, by decide, by decide⟩⟩

/-- Claim C8: when the prefix occurs more than once in the scan text, the
match is extracted at the first occurrence; later occurrences do not
affect the result. -/
theorem search_first_of_multiple_occurrences (contents pat prior : List Char)
    (i j : Nat) (hij : i < j)
    (hi : occursAt pat contents i) (hj : occursAt pat contents j) :
    ∃ m, m ≤ i ∧ occursAt pat contents m ∧ (∀ k, k < m → ¬ occursAt pat contents k) ∧
      search_for_phone_ssid (some contents) pat prior
        = (true, (contents.drop m).take (pat.length + 2)) := by
  rcases string_find_isSome hi with ⟨m, hf⟩
  have hmin := string_find_min hf
  refine ⟨m, hmin i hi, string_find_occursAt hf, ?_, by simp [search_for_phone_ssid, hf]⟩
  intro k hk hok
  exact absurd (hmin k hok) (by omega)

/-- Witness for C8: prefix `"P"` occurs at indices 0 and 2 of `"PaPbc"`;
the extraction happens at index 0. -/
theorem search_first_of_multiple_occurrences_witness :
    (0 : Nat) < 2 ∧ occursAt ['P'] ['P', 'a', 'P', 'b', 'c'] 0 ∧
      occursAt ['P'] ['P', 'a', 'P', 'b', 'c'] 2 ∧
      (∃ m, m ≤ 0 ∧ occursAt ['P'] ['P', 'a', 'P', 'b', 'c'] m ∧
        (∀ k, k < m → ¬ occursAt ['P'] ['P', 'a', 'P', 'b', 'c'] k) ∧
        search_for_phone_ssid (some ['P', 'a', 'P', 'b', 'c']) ['P'] []
          = (true, ((['P', 'a', 'P', 'b', 'c'] : List Char).drop m).take ((['P'] : List Char).length + 2))) :=
  ⟨by decide, by decide, by decide,
    search_first_of_multiple_occurrences ['P', 'a', 'P', 'b', 'c'] ['P'] [] 0 2
      (by decide) (by decide) (by decide)⟩

/-- If no entry of the list passes the selection test, the walk returns
`-1` and leaves the output parameter unchanged. -/
theorem get_wireless_none_match (l : List IfAddr) (p : List Char)
    (h : ∀ ifa ∈ l, ¬ isTargetIface ifa) :
    get_wireless_interface_name l p = (-1, p) := by
  induction l with
  | nil => rfl
  | cons a rest ih =>
    have hma : ¬ matchesIface a = true :=
      fun hc => h a (by simp) ((matchesIface_iff a).mp hc)
    simp only [get_wireless_interface_name, if_neg hma]
    exact ih (fun ifa hm => h ifa (by simp [hm]))

/-- Claim C3: interface selection returns success and outputs the name of
the first enumerated interface that has an assigned IPv4 or IPv6 address
and whose name has first character `'w'` and third character `'x'`;
entries before it all fail the test, so enumeration order decides. -/
theorem get_wireless_selects_first_match (l : List IfAddr) (prior : List Char)
    (h : ∃ ifa ∈ l, isTargetIface ifa) :
    ∃ pre ifa post, l = pre ++ ifa :: post ∧
      (∀ b ∈ pre, ¬ isTargetIface b) ∧ isTargetIface ifa ∧
      get_wireless_interface_name l prior = (0, ifa.name) := by
  induction l with
  | nil => simp at h
  | cons a rest ih =>
    by_cases ha : isTargetIface a
    · exact ⟨[], a, rest, rfl, by simp, ha,
        by simp only [get_wireless_interface_name, if_pos ((matchesIface_iff a).mpr ha)]⟩
    · have h' : ∃ ifa ∈ rest, isTargetIface ifa := by
        rcases h with ⟨ifa, hmem, hifa⟩
        rcases List.mem_cons.mp hmem with rfl | hmem'
        · exact absurd hifa ha
        · exact ⟨ifa, hmem', hifa⟩
      rcases ih h' with ⟨pre, ifa, post, hl, hpre, hifa, hget⟩
      have hma : ¬ matchesIface a = true := fun hc => ha ((matchesIface_iff a).mp hc)
      refine ⟨a :: pre, ifa, post, by rw [hl]; rfl, ?_, hifa, ?_⟩
      · intro b hb
        rcases List.mem_cons.mp hb with rfl | hb'
        · exact ha
        · exact hpre b hb'
      · simp only [get_wireless_interface_name, if_neg hma]
        exact hget

/-- Witness for C3: a wired `eth0` entry followed by `wlx1`; the selector
skips `eth0` and returns `wlx1`. -/
theorem get_wireless_selects_first_match_witness :
    (∃ ifa ∈ [IfAddr.mk ['e', 't', 'h', '0'] (some AddrFamily.inet),
        IfAddr.mk ['w', 'l', 'x', '1'] (some AddrFamily.inet6)], isTargetIface ifa) ∧
      (∃ pre ifa post,
        [IfAddr.mk ['e', 't', 'h', '0'] (some AddrFamily.inet),
          IfAddr.mk ['w', 'l', 'x', '1'] (some AddrFamily.inet6)] = pre ++ ifa :: post ∧
        (∀ b ∈ pre, ¬ isTargetIface b) ∧ isTargetIface ifa ∧
        get_wireless_interface_name
          [IfAddr.mk ['e', 't', 'h', '0'] (some AddrFamily.inet),
            IfAddr.mk ['w', 'l', 'x', '1'] (some AddrFamily.inet6)] []
          = (0, ifa.name)) :=
  ⟨by decide,
    get_wireless_selects_first_match
      [IfAddr.mk ['e', 't', 'h', '0'] (some AddrFamily.inet),
        IfAddr.mk ['w', 'l', 'x', '1'] (some AddrFamily.inet6)] [] (by decide)⟩

/-- Claim C4: when no enumerated interface matches the wireless naming
pattern (including the case of no address-bearing interfaces at all),
selection returns `-1` with the output parameter unchanged, and `main`
terminates with exit code 1 (nonzero) without entering the poll loop. -/
theorem no_wireless_interface_terminates (l : List IfAddr) (prior : List Char)
    (h : ∀ ifa ∈ l, ¬ isTargetIface ifa) :
    get_wireless_interface_name l prior = (-1, prior) ∧
      main_startup l = StartupOutcome.terminated 1 ∧ (1 : Int) ≠ 0 := by
  refine ⟨get_wireless_none_match l prior h, ?_, by decide⟩
  unfold main_startup
  rw [get_wireless_none_match l [] h]
  decide

/-- Witness for C4: two wired, address-bearing interfaces; selection fails
and startup terminates with exit code 1. -/
theorem no_wireless_interface_terminates_witness :
    (∀ ifa ∈ [IfAddr.mk ['e', 't', 'h', '0'] (some AddrFamily.inet),
        IfAddr.mk ['l', 'o'] (some AddrFamily.inet)], ¬ isTargetIface ifa) ∧
      (get_wireless_interface_name
          [IfAddr.mk ['e', 't', 'h', '0'] (some AddrFamily.inet),
            IfAddr.mk ['l', 'o'] (some AddrFamily.inet)] ['q'] = (-1, ['q']) ∧
        main_startup [IfAddr.mk ['e', 't', 'h', '0'] (some AddrFamily.inet),
            IfAddr.mk ['l', 'o'] (some AddrFamily.inet)]
          = StartupOutcome.terminated 1 ∧ (1 : Int) ≠ 0) :=
  ⟨by decide,
    no_wireless_interface_terminates
      [IfAddr.mk ['e', 't', 'h', '0'] (some AddrFamily.inet),
        IfAddr.mk ['l', 'o'] (some AddrFamily.inet)] ['q'] (by decide)⟩

/-- The loop publishes, cycle by cycle, exactly the per-cycle Report of the
spec, independently of the carried output-parameter value. -/
theorem poll_loop_eq_map (scan_files : List (Option (List Char)))
    (pat phone_network : List Char) :
    poll_loop scan_files pat phone_network
      = scan_files.map (fun f => report_spec f pat) := by
  induction scan_files generalizing phone_network with
  | nil => rfl
  | cons f rest ih =>
    simp only [poll_loop, List.map_cons]
    rw [ih ((cycle_report f pat phone_network).2)]
    rfl

/-- Claim C5: every cycle of the poll/report loop publishes exactly one
Report: the matched network name when the matcher succeeds, and the empty
string when there is no match or the scan failed (scan-output file
unreadable). -/
theorem poll_loop_one_report_per_cycle :
    ∀ (scan_files : List (Option (List Char))) (pat phone_network : List Char),
      poll_loop scan_files pat phone_network
          = scan_files.map (fun f => report_spec f pat) ∧
        (poll_loop scan_files pat phone_network).length = scan_files.length ∧
        (∀ p, report_spec none p = []) ∧
        (∀ contents p, (search_for_phone_ssid (some contents) p []).1 = false →
          report_spec (some contents) p = []) ∧
        (∀ contents p, (search_for_phone_ssid (some contents) p []).1 = true →
          report_spec (some contents) p = (search_for_phone_ssid (some contents) p []).2) := by
  intro scan_files pat phone_network
  refine ⟨poll_loop_eq_map scan_files pat phone_network, ?_, fun p => rfl, ?_, ?_⟩
  · rw [poll_loop_eq_map scan_files pat phone_network]
    simp
  · intro contents p hfalse
    simp [report_spec, hfalse]
  · intro contents p htrue
    simp [report_spec, htrue]

/-- Counterexample to claim C6 as stated: `ssid_network_scan` returns the
same value (`()`) whether `system` reported an OS-level launch failure
(`-1`) or success (`0`); the caller cannot observe any
`ScanInvocationFailed` error through it. -/
theorem scan_failure_unobservable_counterexample :
    ssid_network_scan ['w', 'l', 'x', '0'] ['s'] (-1)
      = ssid_network_scan ['w', 'l', 'x', '0'] ['s'] 0 := rfl

/-- Claim C6, amended: `ssid_network_scan` discards the status returned by
`system` and returns void, so a scan-invocation failure is not directly
observable by the caller; it surfaces only indirectly, in that a cycle
whose scan-output file is unreadable makes the matcher return
`(false, "")`. -/
theorem scan_status_discarded (ifname ssid_filename : List Char) :
    (∀ r₁ r₂ : Int,
        ssid_network_scan ifname ssid_filename r₁
          = ssid_network_scan ifname ssid_filename r₂) ∧
      (∀ pat prior : List Char,
        search_for_phone_ssid none pat prior = (false, [])) :=
  ⟨fun _ _ => rfl, fun _ _ => rfl⟩
